import Mathlib

/-!
# Verification of the media playlist manager core (`claudemusic.py`)

Shallow embedding of the history-log, path-codec, search-dispatch,
live-filter, filename-sanitization and player-session logic of the
program, together with proofs and refutations of the specified
properties.

Modelling conventions:

* Python strings (paths, file lines, display names) are modelled as their
  UTF-8 byte sequences, `ByteStr := List Nat`.  All character classes the
  program manipulates (`VALID_CHARS`, percent-encoding alphabets, `#`,
  separators, whitespace) are ASCII, where Python's per-character string
  operations agree with the byte-level ones.  `str.lower()` is modelled as
  ASCII lower-casing, `str.strip()` as stripping ASCII whitespace.
* A text file is modelled as its list of lines (each line without the
  trailing newline); the program always terminates written lines with
  `"\n"`, so appending the text `s + "\n"` appends the lines `splitNL s`.
  A missing file and an empty file read identically (no lines), so both
  are modelled as `[]` where the distinction is immaterial; where the code
  branches on existence (`log_pdf_opened`) the branches produce the same
  line list, which the model reflects.
* `fuzzywuzzy` scorers (`process.extractOne`'s scorer, `fuzz.ratio`) are
  kept abstract as a parameter `scorer : ByteStr → ByteStr → Nat`; the
  claims under verification are about the surrounding control flow, not
  about the edit-distance arithmetic.
-/

set_option autoImplicit false

namespace ClaudeMusic

/-- Python strings modelled as UTF-8 byte sequences. -/
abbrev ByteStr := List Nat

/-- Convenience literal: the byte sequence of an ASCII string. -/
def bstr (s : String) : ByteStr := s.toList.map Char.toNat

/-! ## Byte-level models of Python string primitives -/

/-- Python `str.isspace` restricted to ASCII bytes: space, `\t`, `\n`,
`\v`, `\f`, `\r` and the separator control characters `\x1c`–`\x1f`. -/
def pyWsB (b : Nat) : Bool :=
  b == 32 || (decide (9 ≤ b) && decide (b ≤ 13)) || (decide (28 ≤ b) && decide (b ≤ 31))

/-- Python `str.strip()`: drop leading and trailing whitespace. -/
def pyStrip (l : ByteStr) : ByteStr :=
  ((l.dropWhile pyWsB).reverse.dropWhile pyWsB).reverse

/-- Python `str.lower()` (ASCII model): map `A`–`Z` to `a`–`z`. -/
def lowerB (l : ByteStr) : ByteStr :=
  l.map (fun b => if 65 ≤ b ∧ b ≤ 90 then b + 32 else b)

/-- Python `str.replace(c, d)` for single characters. -/
def replB (c d : Nat) (l : ByteStr) : ByteStr :=
  l.map (fun b => if b = c then d else b)

/-- Python `str.split(sep)` for a single separator byte. -/
def splitOnB (sep : Nat) : ByteStr → List ByteStr
  | [] => [[]]
  | b :: rest =>
    match splitOnB sep rest with
    | s :: ss => if b = sep then [] :: s :: ss else (b :: s) :: ss
    | [] => [[b]]

/-- The lines contributed by appending the text `s + "\n"` to a
newline-terminated file. -/
def splitNL (s : ByteStr) : List ByteStr := splitOnB 10 s

/-- Appending one `write(s + "\n")` to a file modelled as a line list. -/
def appendLine (file : List ByteStr) (s : ByteStr) : List ByteStr :=
  file ++ splitNL s

/-- Python `str.endswith(suffix)`. -/
def endsWithB (l suffix : ByteStr) : Bool :=
  decide (suffix.length ≤ l.length) && decide (l.drop (l.length - suffix.length) = suffix)

/-- POSIX `os.path.basename`: the part after the last `/`. -/
def basenameB (p : ByteStr) : ByteStr :=
  (p.reverse.takeWhile (fun b => b ≠ 47)).reverse

/-- `os.path.splitext(f)[0]`: cut at the last dot, unless every character
before that dot is itself a dot (so `".m3u"` keeps its "extension"). -/
def splitextBase (f : ByteStr) : ByteStr :=
  match f.reverse.findIdx? (fun b => b = 46) with
  | none => f
  | some j =>
    let i := f.length - 1 - j
    if (f.take i).any (fun b => b ≠ 46) then f.take i else f

/-! ## PathCodec: `urllib.parse.quote` / `unquote` and the `file:///` scheme -/

/-- Bytes `urllib.parse.quote` leaves unencoded with the default
`safe='/'`: ASCII alphanumerics, `_ . - ~` and `/`. -/
def safeByte (b : Nat) : Bool :=
  (decide (48 ≤ b) && decide (b ≤ 57)) || (decide (65 ≤ b) && decide (b ≤ 90)) ||
  (decide (97 ≤ b) && decide (b ≤ 122)) ||
  b == 45 || b == 46 || b == 95 || b == 126 || b == 47

/-- Upper-case hexadecimal digit of a value below 16. -/
def hexDig (n : Nat) : Nat := if n < 10 then 48 + n else 55 + n

/-- Is the byte an ASCII hexadecimal digit (either case)? -/
def isHexB (b : Nat) : Bool :=
  (decide (48 ≤ b) && decide (b ≤ 57)) || (decide (65 ≤ b) && decide (b ≤ 70)) ||
  (decide (97 ≤ b) && decide (b ≤ 102))

/-- Value of an ASCII hexadecimal digit. -/
def hexVal (b : Nat) : Nat :=
  if b ≤ 57 then b - 48 else if b ≤ 70 then b - 55 else b - 87

/-- `urllib.parse.quote(p)` at byte level: safe bytes pass through, every
other byte becomes `%` followed by two upper-case hex digits. -/
def quote : ByteStr → ByteStr
  | [] => []
  | b :: rest =>
    (if safeByte b then [b] else [37, hexDig (b / 16), hexDig (b % 16)]) ++ quote rest

/-- `urllib.parse.unquote` at byte level: a `%` followed by two hex digits
decodes to the corresponding byte; a `%` not followed by two hex digits is
kept literally (as CPython's `_hextobyte` table lookup failure does). -/
def unquote : ByteStr → ByteStr
  | [] => []
  | 37 :: h :: l :: rest2 =>
    if isHexB h && isHexB l then (hexVal h * 16 + hexVal l) :: unquote rest2
    else 37 :: unquote (h :: l :: rest2)
  | b :: rest => b :: unquote rest
termination_by l => l.length
decreasing_by all_goals (simp only [List.length_cons]; omega)

/-- The scheme marker `"file:///"` prefixed to encoded paths. -/
def fileScheme : ByteStr := bstr "file:///"

/-- `Encode`: the playlist writers emit `f"file:///{quote(file_path)}"`
(`create_mkv_playlists`, lines 239–240). -/
def encodePath (p : ByteStr) : ByteStr := fileScheme ++ quote p

/-- `Decode`: `refresh_library` (lines 2361–2374) percent-decodes
`line[8:]` when the line starts with `"file:///"` and otherwise treats the
bare line as an already-decoded path. -/
def decodePath (l : ByteStr) : ByteStr :=
  if l.take 8 = fileScheme then unquote (l.drop 8) else l

/-- `NormalizeForCompare`: lower-case and canonicalize separators to `/`,
as `log_history` does on decoded lines (line 1119/1122). -/
def normalizeForCompare (p : ByteStr) : ByteStr := lowerB (replB 92 47 p)

/-- The normalized dedup key `log_history` computes for a raw log line:
`urllib.parse.unquote(line).replace("\\", "/").lower()`. -/
def normLine (l : ByteStr) : ByteStr := lowerB (replB 92 47 (unquote l))

/-! ## DescriptorStore: history-log append operations

Files are modelled as their list of lines.  `log_pdf_opened` (source lines
357–372) branches on the file's existence; a missing file and an empty one
read back identically, so both are the `[]` case. -/

/-- `log_pdf_opened(pdf_path)`: create the file with the single entry if
absent; otherwise append `pdf_path` only when it is not among the
stripped, non-blank lines already present. -/
def log_pdf_opened (file : List ByteStr) (p : ByteStr) : List ByteStr :=
  if file = [] then splitNL p
  else if p ∈ (file.map pyStrip).filter (fun l => decide (l ≠ [])) then file
  else file ++ splitNL p

/-- `log_search_history(name)` (source lines 374–379): a plain append. -/
def log_search_history (file : List ByteStr) (name : ByteStr) : List ByteStr :=
  appendLine file name

/-- The set of normalized keys `log_history` reads from the existing file
(source lines 1113–1120): stripped, non-blank, non-`#` lines, each
normalized by `unquote`, backslash→slash and lower-casing. -/
def historyKeys (file : List ByteStr) : List ByteStr :=
  ((file.map pyStrip).filter (fun l => decide (l ≠ [] ∧ l.head? ≠ some 35))).map normLine

/-- `log_history(playlist_path)` (source lines 1108–1129).  The caller's
`os.path.abspath` is modelled as the identity: `entry_path` is the already
absolute path; `sep` is `os.sep` (47 on POSIX, 92 on Windows). -/
def log_history (sep : Nat) (file : List ByteStr) (entry_path : ByteStr) : List ByteStr :=
  if normLine (fileScheme ++ quote (replB sep 47 entry_path)) ∈ historyKeys file then file
  else file ++ splitNL (fileScheme ++ quote (replB sep 47 entry_path))

/-- `scan_and_log_files` (source lines 1896–1928), from the point where
the walked file list is in hand: `files` is the list of absolute paths
found under the folder, `isM3u` tells whether the history file name ends
in `.m3u` (encoded lines) or not (raw lines).  New files are those not
byte-equal to an existing stripped line. -/
def scanExisting (history : List ByteStr) : List ByteStr :=
  (history.map pyStrip).filter (fun l => decide (l ≠ []))

def scan_and_log_files (isM3u : Bool) (files : List ByteStr) (history : List ByteStr) :
    List ByteStr :=
  if files = [] then history
  else if files.filter (fun f => decide (f ∉ scanExisting history)) = [] then history
  else
    history ++ (files.filter (fun f => decide (f ∉ scanExisting history))).flatMap (fun f =>
      if isM3u then splitNL (fileScheme ++ quote f) else splitNL f)

/-! ## FuzzyDispatcher: best-match search (`search_and_open`, lines 381–428)

The environment collects the pieces of filesystem state the function
reads and writes: the playlist folder listing, the document history file,
the two logs it may append to, and an oracle for `os.path.exists`. -/

structure SearchEnv where
  playlistDirFiles : List ByteStr
  pdfHistory : List ByteStr
  searchHistory : List ByteStr
  pdfOpenedHistory : List ByteStr
  existingPaths : List ByteStr
deriving DecidableEq

inductive SearchResult where
  | noData
  | noMatch
  | openedPlaylist (title : ByteStr)
  | openedPdf (path : ByteStr)
  | pdfNotFound
  | pdfMissing (path : ByteStr)
deriving DecidableEq

/-- `playlist_titles` (line 382–383): base names of every `.m3u` file in
the playlist folder — the internal history logs are not excluded here. -/
def playlistTitles (env : SearchEnv) : List ByteStr :=
  (env.playlistDirFiles.filter (fun f => endsWithB f (bstr ".m3u"))).map splitextBase

/-- The stripped non-blank lines of `PDF_HISTORY_FILE` (lines 387–388). -/
def pdfLines (env : SearchEnv) : List ByteStr :=
  (env.pdfHistory.map pyStrip).filter (fun l => decide (l ≠ []))

/-- `all_titles` (line 391): playlist titles plus the document file names
(`os.path.basename`, extension kept — line 389). -/
def searchTitles (env : SearchEnv) : List ByteStr :=
  playlistTitles env ++ (pdfLines env).map basenameB

/-- One comparison step of Python's `max(..., key=score)`: a strictly
greater score replaces the current best, so the first maximum is kept. -/
def bestStep (scorer : ByteStr → ByteStr → Nat) (q : ByteStr) (best : ByteStr × Nat)
    (u : ByteStr) : ByteStr × Nat :=
  if scorer q u > best.2 then (u, scorer q u) else best

/-- `process.extractOne(query, choices)` with an abstract scorer: the
first choice attaining the maximal score. Returns `none` on an empty
choice list. -/
def extractOne (scorer : ByteStr → ByteStr → Nat) (q : ByteStr) :
    List ByteStr → Option (ByteStr × Nat)
  | [] => none
  | t :: ts => some (ts.foldl (bestStep scorer q) (t, scorer q t))

/-- `search_and_open(query)`.  The `if not all_titles` guard corresponds
to the `none` branch of `extractOne`.  `launch_vlc` / the OS document open
are reflected in the result constructor; the log writes mirror
`log_search_history` (plain append) and `log_pdf_opened`. -/
def search_and_open (scorer : ByteStr → ByteStr → Nat) (env : SearchEnv) (query : ByteStr) :
    SearchResult × SearchEnv :=
  match extractOne scorer query (searchTitles env) with
  | none => (SearchResult.noData, env)
  | some (best, score) =>
    if score < 60 then (SearchResult.noMatch, env)
    else if best ∈ playlistTitles env then
      (SearchResult.openedPlaylist best,
        { env with searchHistory := appendLine env.searchHistory best })
    else
      match (pdfLines env).filter (fun p => decide (basenameB p = best)) with
      | [] => (SearchResult.pdfNotFound, env)
      | p :: _ =>
        if p ∈ env.existingPaths then
          (SearchResult.openedPdf p,
            { env with
                pdfOpenedHistory := log_pdf_opened env.pdfOpenedHistory p,
                searchHistory := appendLine env.searchHistory best })
        else (SearchResult.pdfMissing p, env)

/-! ## Live filter (`MKVPlayerApp.filter_library`, lines 2424–2466) -/

structure MediaItem where
  name : ByteStr
  mediaType : ByteStr
  path : ByteStr
  playlist : Option ByteStr
  artist : ByteStr
  album : ByteStr
deriving DecidableEq

/-- The comma-separated, trimmed parts of the lower-cased, stripped
query (lines 2425, 2429). -/
def queryParts (rawQuery : ByteStr) : List ByteStr :=
  (splitOnB 44 (lowerB (pyStrip rawQuery))).map pyStrip

/-- `filter_library`: empty query shows everything; 1, 2 or 3 parts give
the loose / "album, artist" / "song, album, artist" modes at threshold
70; any other part count leaves the accumulator empty. -/
def filter_library (ratio : ByteStr → ByteStr → Nat) (items : List MediaItem)
    (rawQuery : ByteStr) : List MediaItem :=
  if lowerB (pyStrip rawQuery) = [] then items
  else
    match queryParts rawQuery with
    | [t] => items.filter (fun it =>
        decide (70 ≤ ratio t (lowerB it.name)) || decide (70 ≤ ratio t (lowerB it.album)) ||
        decide (70 ≤ ratio t (lowerB it.artist)))
    | [aq, arq] => items.filter (fun it =>
        decide (it.album ≠ []) && decide (it.artist ≠ []) &&
        (decide (70 ≤ ratio aq (lowerB it.album)) && decide (70 ≤ ratio arq (lowerB it.artist))))
    | [sq, aq, arq] => items.filter (fun it =>
        decide (it.name ≠ []) && decide (it.album ≠ []) && decide (it.artist ≠ []) &&
        (decide (70 ≤ ratio sq (lowerB it.name)) && decide (70 ≤ ratio aq (lowerB it.album)) &&
          decide (70 ≤ ratio arq (lowerB it.artist))))
    | _ => []

/-! ## Filename sanitization (`sanitize_playlist_name`, `create_mkv_playlists`,
`create_music_playlists.write_playlist`) -/

/-- Membership in `VALID_CHARS = "-_.() " + ascii_letters + digits`. -/
def validByte (b : Nat) : Bool :=
  b == 45 || b == 95 || b == 46 || b == 40 || b == 41 || b == 32 ||
  (decide (65 ≤ b) && decide (b ≤ 90)) || (decide (97 ≤ b) && decide (b ≤ 122)) ||
  (decide (48 ≤ b) && decide (b ≤ 57))

/-- `sanitize_playlist_name` (lines 210–211); `write_playlist` inlines the
same expression (line 303). -/
def sanitize_playlist_name (name : ByteStr) : ByteStr := pyStrip (name.filter validByte)

/-- The truncated safe name of `create_mkv_playlists` (line 236):
`safe_name[:MAX_FILENAME_LENGTH - len(".m3u")]`, i.e. the first 211 bytes. -/
def mkvSafeName (name : ByteStr) : ByteStr := (sanitize_playlist_name name).take 211

/-- The file name `create_mkv_playlists` writes to (line 237). -/
def mkvPlaylistFilename (name : ByteStr) : ByteStr := mkvSafeName name ++ bstr ".m3u"

/-- The file name `create_music_playlists.write_playlist` writes to
(lines 303–308), with `hashlib.md5(...).hexdigest()` abstract. -/
def write_playlist_filename (md5hex : ByteStr → ByteStr) (name : ByteStr) : ByteStr :=
  (if sanitize_playlist_name name = [] then bstr "playlist_" ++ (md5hex name).take 8
   else sanitize_playlist_name name).take 211 ++ bstr ".m3u"

/-! ## PlayerSession (`launch_vlc`, `connect_vlc_socket`, `send_vlc_command`,
lines 1972–2028)

`liveProcs` / `openConns` track the externally visible resources
(processes not yet sent a kill, connections not yet closed);
`killRequests` records every `VLC_PROCESS.kill()` issued.  Dropping the
last reference to a CPython socket closes it, so overwriting
`VLC_SOCKET = None` on a send failure also removes the connection.  The
connect event carries the precondition `vlcSocket = none`: the connect
thread only runs in the window a launch opens (which just cleared the
socket) and stops after its first success. -/

structure VlcState where
  vlcProcess : Option Nat
  vlcSocket : Option Nat
  liveProcs : List Nat
  openConns : List Nat
  killRequests : List Nat
deriving DecidableEq

/-- The socket teardown at the top of `launch_vlc` (lines 2003–2008). -/
def closeSocketStep (st : VlcState) : VlcState :=
  match st.vlcSocket with
  | some c => { st with vlcSocket := none, openConns := st.openConns.erase c }
  | none => st

/-- The `VLC_PROCESS.kill()` call (lines 2010–2014); the variable itself
is only reassigned by the subsequent `Popen`. -/
def killProcessStep (st : VlcState) : VlcState :=
  match st.vlcProcess with
  | some p => { st with liveProcs := st.liveProcs.erase p, killRequests := st.killRequests ++ [p] }
  | none => st

/-- `launch_vlc(media_path)` with a fresh process handle `newPid`. -/
def launch_vlc (st : VlcState) (newPid : Nat) : VlcState :=
  { killProcessStep (closeSocketStep st) with
      vlcProcess := some newPid,
      liveProcs := (killProcessStep (closeSocketStep st)).liveProcs ++ [newPid] }

/-- A successful `connect_vlc_socket` attempt storing connection `c`. -/
def connect_vlc_socket (st : VlcState) (c : Nat) : VlcState :=
  { st with vlcSocket := some c, openConns := st.openConns ++ [c] }

/-- `send_vlc_command` hitting a socket error (lines 1993–1997): the
reference is dropped, closing the connection. -/
def send_vlc_fail (st : VlcState) : VlcState :=
  match st.vlcSocket with
  | some c => { st with vlcSocket := none, openConns := st.openConns.erase c }
  | none => st

inductive VlcStep : VlcState → VlcState → Prop where
  | launch (st : VlcState) (pid : Nat) : VlcStep st (launch_vlc st pid)
  | connect (st : VlcState) (c : Nat) (h : st.vlcSocket = none) :
      VlcStep st (connect_vlc_socket st c)
  | sendFail (st : VlcState) : VlcStep st (send_vlc_fail st)

/-- The module-level initial state: `VLC_SOCKET = None`, `VLC_PROCESS = None`. -/
def initVlcState : VlcState := ⟨none, none, [], [], []⟩

inductive VlcReachable : VlcState → Prop where
  | init : VlcReachable initVlcState
  | step {st st' : VlcState} : VlcReachable st → VlcStep st st' → VlcReachable st'

/-! ### Spec-side definitions, written from the claims' words -/

/-- Claim C5's qualification rules for the live filter, by part count. -/
def specQualifies (ratio : ByteStr → ByteStr → Nat) (parts : List ByteStr)
    (it : MediaItem) : Prop :=
  match parts with
  | [t] =>
    70 ≤ ratio t (lowerB it.name) ∨ 70 ≤ ratio t (lowerB it.album) ∨
    70 ≤ ratio t (lowerB it.artist)
  | [aq, arq] =>
    it.album ≠ [] ∧ it.artist ≠ [] ∧
    70 ≤ ratio aq (lowerB it.album) ∧ 70 ≤ ratio arq (lowerB it.artist)
  | [sq, aq, arq] =>
    it.name ≠ [] ∧ it.album ≠ [] ∧ it.artist ≠ [] ∧
    70 ≤ ratio sq (lowerB it.name) ∧ 70 ≤ ratio aq (lowerB it.album) ∧
    70 ≤ ratio arq (lowerB it.artist)
  | _ => False

/-- The amended best-match candidate universe, written from the corrected
spec words: the base names of all `.m3u` files in the playlist folder
(internal history logs included) together with the basenames (extension
kept) of the non-blank document-history lines. -/
def inBestMatchUniverse (env : SearchEnv) (t : ByteStr) : Prop :=
  (∃ f, f ∈ env.playlistDirFiles ∧ endsWithB f (bstr ".m3u") = true ∧ splitextBase f = t) ∨
  (∃ p, p ∈ env.pdfHistory ∧ pyStrip p ≠ [] ∧ basenameB (pyStrip p) = t)

/-! ### Codec lemmas -/

theorem hexVal_hexDig : ∀ n : Nat, n < 16 → hexVal (hexDig n) = n := by decide

theorem isHexB_hexDig : ∀ n : Nat, n < 16 → isHexB (hexDig n) = true := by decide

theorem safeByte_ne_37 {b : Nat} (h : safeByte b = true) : b ≠ 37 := by
  simp only [safeByte, Bool.or_eq_true, Bool.and_eq_true, decide_eq_true_eq, beq_iff_eq] at h
  omega

theorem unquote_cons_of_ne {b : Nat} (h : b ≠ 37) (rest : ByteStr) :
    unquote (b :: rest) = b :: unquote rest := by
  rw [unquote.eq_def]
  split
  · simp_all
  · rename_i heq
    exact absurd (List.cons.injEq .. ▸ heq).1 h
  · rename_i heq
    obtain ⟨h1, h2⟩ := (List.cons.injEq .. ▸ heq)
    rw [h1, h2]

theorem unquote_cons_safe {b : Nat} (h : safeByte b = true) (rest : ByteStr) :
    unquote (b :: rest) = b :: unquote rest :=
  unquote_cons_of_ne (safeByte_ne_37 h) rest

theorem unquote_quote_encoded (b : Nat) (hb : b < 256) (rest : ByteStr) :
    unquote (37 :: hexDig (b / 16) :: hexDig (b % 16) :: rest) = b :: unquote rest := by
  have hdiv : b / 16 < 16 := by omega
  have hmod : b % 16 < 16 := Nat.mod_lt _ (by omega)
  rw [unquote]
  simp only [isHexB_hexDig _ hdiv, isHexB_hexDig _ hmod, Bool.and_self, if_pos rfl, if_true,
    hexVal_hexDig _ hdiv, hexVal_hexDig _ hmod]
  congr 1
  rw [Nat.mul_comm]
  exact Nat.div_add_mod b 16

/-- Percent-decoding inverts percent-encoding on valid byte strings. -/
theorem unquote_quote (p : ByteStr) (hp : ∀ b ∈ p, b < 256) : unquote (quote p) = p := by
  induction p with
  | nil => simp [quote, unquote]
  | cons b rest ih =>
    have hb : b < 256 := hp b (List.mem_cons_self b rest)
    have hrest : ∀ x ∈ rest, x < 256 := fun x hx => hp x (List.mem_cons_of_mem b hx)
    rw [quote]
    by_cases hs : safeByte b = true
    · rw [if_pos hs, List.singleton_append, unquote_cons_safe hs, ih hrest]
    · rw [if_neg hs]
      show unquote (37 :: hexDig (b / 16) :: hexDig (b % 16) :: quote rest) = b :: rest
      rw [unquote_quote_encoded b hb, ih hrest]

/-- `unquote` distributes over an append whose left part contains no `%`. -/
theorem unquote_append_of_no_percent (a b : ByteStr) (ha : ∀ x ∈ a, x ≠ 37) :
    unquote (a ++ b) = a ++ unquote b := by
  induction a with
  | nil => rfl
  | cons x rest ih =>
    have hx : x ≠ 37 := ha x (List.mem_cons_self x rest)
    have hrest : ∀ y ∈ rest, y ≠ 37 := fun y hy => ha y (List.mem_cons_of_mem x hy)
    rw [List.cons_append, unquote_cons_of_ne hx, ih hrest, List.cons_append]

theorem fileScheme_no_percent : ∀ x ∈ fileScheme, x ≠ 37 := by decide

/-- C7: Path codec round-trip — for every path `p` (as a byte sequence,
spaces and non-ASCII bytes included), decoding the encoded form recovers
`p` exactly: `Encode` percent-encodes and prefixes `file:///`, `Decode`
strips the marker and percent-decodes, and their composite is the
identity. -/
theorem c7_codec_round_trip (p : ByteStr) (hp : ∀ b ∈ p, b < 256) :
    decodePath (encodePath p) = p := by
  rw [encodePath, decodePath]
  have hlen : fileScheme.length = 8 := by decide
  rw [← hlen, List.take_left, if_pos rfl, List.drop_left, unquote_quote p hp]

/-! ### Generic list lemmas about the string primitives -/

theorem splitOnB_of_not_mem {sep : Nat} : ∀ {s : ByteStr}, sep ∉ s → splitOnB sep s = [s]
  | [], _ => rfl
  | b :: rest, h => by
    have hb : b ≠ sep := fun e => h (e ▸ List.mem_cons_self b rest)
    have hrest : sep ∉ rest := fun e => h (List.mem_cons_of_mem b e)
    rw [splitOnB, splitOnB_of_not_mem hrest]
    simp [hb]

theorem splitNL_singleton {s : ByteStr} (h : (10 : Nat) ∉ s) : splitNL s = [s] :=
  splitOnB_of_not_mem h

theorem dropWhile_eq_self_of {p : Nat → Bool} :
    ∀ {l : ByteStr}, (∀ b ∈ l, p b = false) → l.dropWhile p = l
  | [], _ => rfl
  | b :: rest, h => by
    rw [List.dropWhile_cons, h b (List.mem_cons_self b rest)]
    simp

theorem pyStrip_eq_self {l : ByteStr} (h : ∀ b ∈ l, pyWsB b = false) : pyStrip l = l := by
  rw [pyStrip, dropWhile_eq_self_of h, dropWhile_eq_self_of (fun b hb => h b (List.mem_reverse.mp hb)),
    List.reverse_reverse]

/-- Every byte emitted by `quote` is above the ASCII whitespace range
(safe bytes are at least 45, `%` is 37, hex digits are at least 48). -/
theorem quote_no_ws : ∀ {p : ByteStr}, ∀ x ∈ quote p, pyWsB x = false := by
  intro p
  induction p with
  | nil => intro x hx; cases hx
  | cons b rest ih =>
    intro x hx
    rw [quote] at hx
    rcases List.mem_append.mp hx with hl | hr
    · by_cases hs : safeByte b = true
      · rw [if_pos hs] at hl
        rcases List.mem_singleton.mp hl with rfl
        simp only [safeByte, Bool.or_eq_true, Bool.and_eq_true, decide_eq_true_eq,
          beq_iff_eq] at hs
        simp only [pyWsB, Bool.or_eq_false_iff, Bool.and_eq_false_iff, beq_eq_false_iff_ne,
          decide_eq_false_iff_not]
        omega
      · rw [if_neg hs] at hl
        have hge : 37 ≤ x := by
          simp only [List.mem_cons, List.not_mem_nil, or_false] at hl
          rcases hl with rfl | rfl | rfl
          · omega
          · rw [hexDig]; split <;> omega
          · rw [hexDig]; split <;> omega
        simp only [pyWsB, Bool.or_eq_false_iff, Bool.and_eq_false_iff, beq_eq_false_iff_ne,
          decide_eq_false_iff_not]
        omega
    · exact ih x hr

theorem fileScheme_no_ws : ∀ x ∈ fileScheme, pyWsB x = false := by decide

/-- An encoded log line `file:/// ++ quote p` contains no whitespace byte. -/
theorem encodedLine_no_ws (p : ByteStr) : ∀ x ∈ fileScheme ++ quote p, pyWsB x = false := by
  intro x hx
  rcases List.mem_append.mp hx with h | h
  · exact fileScheme_no_ws x h
  · exact quote_no_ws x h

theorem encodedLine_strip (p : ByteStr) : pyStrip (fileScheme ++ quote p) = fileScheme ++ quote p :=
  pyStrip_eq_self (encodedLine_no_ws p)

theorem encodedLine_no_nl (p : ByteStr) : (10 : Nat) ∉ fileScheme ++ quote p := by
  intro h
  have := encodedLine_no_ws p 10 h
  simp [pyWsB] at this

theorem encodedLine_ne_nil (p : ByteStr) : fileScheme ++ quote p ≠ [] := by
  simp [fileScheme, bstr]

theorem encodedLine_head (p : ByteStr) : (fileScheme ++ quote p).head? = some 102 := rfl

/-! ### Dedup/idempotence lemmas for the logs -/

theorem replB_valid {c d : Nat} (hd : d < 256) {p : ByteStr} (hp : ∀ b ∈ p, b < 256) :
    ∀ b ∈ replB c d p, b < 256 := by
  intro b hb
  rw [replB] at hb
  rcases List.mem_map.mp hb with ⟨a, ha, rfl⟩
  split
  · exact hd
  · exact hp a ha

theorem replB_self (c : Nat) (p : ByteStr) : replB c c p = p := by
  rw [replB]
  rw [show (fun b => if b = c then c else b) = id by funext b; split <;> simp_all]
  exact List.map_id p

theorem replB_idem (c d : Nat) (hcd : d ≠ c) (p : ByteStr) : replB c d (replB c d p) = replB c d p := by
  rw [replB, replB, List.map_map]
  refine List.map_congr_left (fun a _ => ?_)
  by_cases h : a = c <;> simp [h, hcd]

theorem replB_append (c d : Nat) (a b : ByteStr) : replB c d (a ++ b) = replB c d a ++ replB c d b :=
  List.map_append _ a b

theorem lowerB_append (a b : ByteStr) : lowerB (a ++ b) = lowerB a ++ lowerB b :=
  List.map_append _ a b

/-- The normalized key of an encoded history line is the scheme marker
followed by the `NormalizeForCompare` form of the path. -/
theorem normLine_encoded (sep : Nat) (hsep : sep = 47 ∨ sep = 92) (p : ByteStr)
    (hp : ∀ b ∈ p, b < 256) :
    normLine (fileScheme ++ quote (replB sep 47 p)) = fileScheme ++ normalizeForCompare p := by
  have hx : ∀ b ∈ replB sep 47 p, b < 256 := replB_valid (by omega) hp
  rw [normLine, unquote_append_of_no_percent _ _ fileScheme_no_percent, unquote_quote _ hx,
    replB_append, lowerB_append]
  have hscheme1 : replB 92 47 fileScheme = fileScheme := by decide
  have hscheme2 : lowerB fileScheme = fileScheme := by decide
  rw [hscheme1, hscheme2, normalizeForCompare]
  congr 2
  rcases hsep with rfl | rfl
  · rw [replB_self]
  · rw [replB_idem _ _ (by omega)]

theorem historyKeys_append_encoded (file : List ByteStr) (x : ByteStr) :
    historyKeys (file ++ [fileScheme ++ quote x]) =
      historyKeys file ++ [normLine (fileScheme ++ quote x)] := by
  rw [historyKeys, historyKeys, List.map_append, List.filter_append, List.map_append]
  congr 1
  rw [List.map_singleton, encodedLine_strip, List.filter_cons, List.filter_nil]
  rw [if_pos]
  · rw [List.map_singleton]
  · simp [encodedLine_ne_nil x, encodedLine_head x]

/-- Shared dedupe lemma for `log_history`: appending a second path whose
normalized form agrees with an already-appended one changes nothing. -/
theorem log_history_norm_dedupe (sep : Nat) (hsep : sep = 47 ∨ sep = 92)
    (file : List ByteStr) (p1 p2 : ByteStr)
    (h1 : ∀ b ∈ p1, b < 256) (h2 : ∀ b ∈ p2, b < 256)
    (hnorm : normalizeForCompare p1 = normalizeForCompare p2) :
    log_history sep (log_history sep file p1) p2 = log_history sep file p1 := by
  have hkey : normLine (fileScheme ++ quote (replB sep 47 p2)) =
      normLine (fileScheme ++ quote (replB sep 47 p1)) := by
    rw [normLine_encoded sep hsep p2 h2, normLine_encoded sep hsep p1 h1, hnorm]
  by_cases hmem : normLine (fileScheme ++ quote (replB sep 47 p1)) ∈ historyKeys file
  · have hinner : log_history sep file p1 = file := by rw [log_history, if_pos hmem]
    rw [hinner, log_history, hkey, if_pos hmem]
  · have hinner : log_history sep file p1 =
        file ++ [fileScheme ++ quote (replB sep 47 p1)] := by
      rw [log_history, if_neg hmem, splitNL_singleton (encodedLine_no_nl _)]
    rw [hinner, log_history, hkey, historyKeys_append_encoded]
    rw [if_pos (List.mem_append.mpr (Or.inr (List.mem_singleton.mpr rfl)))]

/-- Shared idempotence lemma for `log_pdf_opened`, for paths that survive
the read-back round trip (non-blank, no surrounding whitespace, single
line). -/
theorem log_pdf_opened_idem (file : List ByteStr) (p : ByteStr)
    (hstrip : pyStrip p = p) (hne : p ≠ []) (hnl : (10 : Nat) ∉ p) :
    log_pdf_opened (log_pdf_opened file p) p = log_pdf_opened file p := by
  have hsplit : splitNL p = [p] := splitNL_singleton hnl
  have hkeyp : p ∈ (List.map pyStrip [p]).filter (fun l => decide (l ≠ [])) := by
    rw [List.map_singleton, hstrip, List.filter_cons, if_pos (by simp [hne]), List.filter_nil]
    exact List.mem_singleton.mpr rfl
  by_cases hfile : file = []
  · subst hfile
    have hinner : log_pdf_opened [] p = [p] := by rw [log_pdf_opened, if_pos rfl, hsplit]
    rw [hinner, log_pdf_opened, if_neg (by simp), if_pos (by simpa using hkeyp)]
  · by_cases hmem : p ∈ (file.map pyStrip).filter (fun l => decide (l ≠ []))
    · have hinner : log_pdf_opened file p = file := by
        rw [log_pdf_opened, if_neg hfile, if_pos hmem]
      rw [hinner, log_pdf_opened, if_neg hfile, if_pos hmem]
    · have hinner : log_pdf_opened file p = file ++ [p] := by
        rw [log_pdf_opened, if_neg hfile, if_neg hmem, hsplit]
      rw [hinner, log_pdf_opened, if_neg (by simp [hfile]), if_pos ?_]
      rw [List.map_append, List.filter_append]
      exact List.mem_append.mpr (Or.inr hkeyp)

/-- `scan_and_log_files` appends nothing when every scanned path is
byte-equal to an existing stripped line: its dedupe key is the raw line. -/
theorem scan_byte_dedupe (isM3u : Bool) (files : List ByteStr) (history : List ByteStr)
    (h : ∀ f ∈ files, f ∈ scanExisting history) :
    scan_and_log_files isM3u files history = history := by
  have hnew : files.filter (fun f => decide (f ∉ scanExisting history)) = [] := by
    rw [List.filter_eq_nil_iff]
    intro f hf
    simp only [decide_eq_true_eq]
    exact fun hc => hc (h f hf)
  rw [scan_and_log_files]
  by_cases hfiles : files = []
  · rw [if_pos hfiles]
  · rw [if_neg hfiles, hnew, if_pos rfl]

/-- One step preserves the resource-tracking invariant. -/
theorem vlc_step_invariant {st st' : VlcState} (hstep : VlcStep st st')
    (ihp : st.liveProcs = st.vlcProcess.toList) (ihc : st.openConns = st.vlcSocket.toList) :
    st'.liveProcs = st'.vlcProcess.toList ∧ st'.openConns = st'.vlcSocket.toList := by
  cases hstep with
  | launch pid =>
    cases hs : st.vlcSocket <;> cases hp : st.vlcProcess <;>
      simp_all [launch_vlc, closeSocketStep, killProcessStep, List.erase_cons_head]
  | connect c hnone =>
    simp_all [connect_vlc_socket]
  | sendFail =>
    cases hs : st.vlcSocket <;> simp_all [send_vlc_fail, List.erase_cons_head]

/-- Session invariant: the live resources are exactly the tracked ones. -/
theorem vlc_invariant {st : VlcState} (h : VlcReachable st) :
    st.liveProcs = st.vlcProcess.toList ∧ st.openConns = st.vlcSocket.toList := by
  induction h with
  | init => exact ⟨rfl, rfl⟩
  | step _ hstep ih => exact vlc_step_invariant hstep ih.1 ih.2

/-- After two launches the only live process is the second one's, and the
first one's handle was sent a termination request. -/
theorem launch_launch_spec {st : VlcState} (hInv : st.liveProcs = st.vlcProcess.toList)
    (a b : Nat) :
    (launch_vlc (launch_vlc st a) b).liveProcs = [b] ∧
    a ∈ (launch_vlc (launch_vlc st a) b).killRequests := by
  have h1 : (launch_vlc st a).liveProcs = [a] := by
    cases hs : st.vlcSocket <;> cases hp : st.vlcProcess <;>
      simp_all [launch_vlc, closeSocketStep, killProcessStep, List.erase_cons_head]
  have h2 : (launch_vlc st a).vlcProcess = some a := by
    cases hs : st.vlcSocket <;> cases hp : st.vlcProcess <;>
      simp [launch_vlc, closeSocketStep, killProcessStep, hs, hp]
  cases hs2 : (launch_vlc st a).vlcSocket <;>
    simp_all [launch_vlc, closeSocketStep, killProcessStep, List.erase_cons_head]

/-! ### The argmax property of `extractOne` -/

theorem bestStep_foldl_spec (scorer : ByteStr → ByteStr → Nat) (q : ByteStr) :
    ∀ (ts : List ByteStr) (b0 : ByteStr) (s0 : Nat), scorer q b0 = s0 →
      scorer q (ts.foldl (bestStep scorer q) (b0, s0)).1 =
          (ts.foldl (bestStep scorer q) (b0, s0)).2 ∧
      ((ts.foldl (bestStep scorer q) (b0, s0)).1 = b0 ∨
        (ts.foldl (bestStep scorer q) (b0, s0)).1 ∈ ts) ∧
      s0 ≤ (ts.foldl (bestStep scorer q) (b0, s0)).2 ∧
      ∀ t ∈ ts, scorer q t ≤ (ts.foldl (bestStep scorer q) (b0, s0)).2 := by
  intro ts
  induction ts with
  | nil =>
    intro b0 s0 h0
    exact ⟨h0, Or.inl rfl, Nat.le_refl _, fun t ht => absurd ht (List.not_mem_nil t)⟩
  | cons u ts ih =>
    intro b0 s0 h0
    rw [List.foldl_cons]
    by_cases hgt : scorer q u > s0
    · have hstep : bestStep scorer q (b0, s0) u = (u, scorer q u) := by
        rw [bestStep, if_pos hgt]
      rw [hstep]
      obtain ⟨ih1, ih2, ih3, ih4⟩ := ih u (scorer q u) rfl
      refine ⟨ih1, ?_, ?_, ?_⟩
      · rcases ih2 with h | h
        · exact Or.inr (by rw [h]; exact List.mem_cons_self u ts)
        · exact Or.inr (List.mem_cons_of_mem u h)
      · exact Nat.le_trans (Nat.le_of_lt hgt) ih3
      · intro t ht
        rcases List.mem_cons.mp ht with rfl | ht
        · exact ih3
        · exact ih4 t ht
    · have hstep : bestStep scorer q (b0, s0) u = (b0, s0) := by
        rw [bestStep, if_neg hgt]
      rw [hstep]
      obtain ⟨ih1, ih2, ih3, ih4⟩ := ih b0 s0 h0
      refine ⟨ih1, ?_, ih3, ?_⟩
      · rcases ih2 with h | h
        · exact Or.inl h
        · exact Or.inr (List.mem_cons_of_mem u h)
      · intro t ht
        rcases List.mem_cons.mp ht with rfl | ht
        · exact Nat.le_trans (Nat.le_of_not_lt hgt) ih3
        · exact ih4 t ht

/-- What a `some` answer of `extractOne` means: the winner is a choice,
its score is the reported one, and no choice scores higher. -/
theorem extractOne_spec {scorer : ByteStr → ByteStr → Nat} {q best : ByteStr} {score : Nat}
    {choices : List ByteStr} (h : extractOne scorer q choices = some (best, score)) :
    best ∈ choices ∧ scorer q best = score ∧ ∀ t ∈ choices, scorer q t ≤ score := by
  match choices with
  | [] => exact absurd h (by rw [extractOne]; exact fun hc => Option.noConfusion hc)
  | t :: ts =>
    rw [extractOne] at h
    obtain ⟨h1, h2, h3, h4⟩ := bestStep_foldl_spec scorer q ts t (scorer q t) rfl
    have heq : (ts.foldl (bestStep scorer q) (t, scorer q t)) = (best, score) :=
      Option.some.injEq .. ▸ h
    rw [heq] at h1 h2 h3 h4
    refine ⟨?_, h1, ?_⟩
    · rcases h2 with h | h
      · rw [show best = t from h]; exact List.mem_cons_self t ts
      · exact List.mem_cons_of_mem t h
    · intro u hu
      rcases List.mem_cons.mp hu with rfl | hu
      · exact h3
      · exact h4 u hu

/-! ### Head/last structure of stripped strings (for the sanitizer) -/

theorem head_dropWhile {p : Nat → Bool} :
    ∀ {l : ByteStr} {b : Nat}, (l.dropWhile p).head? = some b → p b = false := by
  intro l
  induction l with
  | nil => intro b h; cases h
  | cons x xs ih =>
    intro b h
    rw [List.dropWhile_cons] at h
    by_cases hx : p x = true
    · rw [if_pos hx] at h
      exact ih h
    · rw [if_neg hx] at h
      cases h
      exact Bool.eq_false_iff.mpr hx

theorem getLast_of_suffix {s l : ByteStr} (h : s <:+ l) (hne : s ≠ []) :
    s.getLast? = l.getLast? := by
  obtain ⟨t, rfl⟩ := h
  rw [List.getLast?_append_of_ne_nil _ hne]

theorem pyStrip_head {l : ByteStr} {b : Nat} (h : (pyStrip l).head? = some b) :
    pyWsB b = false := by
  rw [pyStrip, List.head?_reverse] at h
  by_cases hnil : ((l.dropWhile pyWsB).reverse.dropWhile pyWsB) = []
  · rw [hnil] at h; cases h
  · rw [getLast_of_suffix (List.dropWhile_suffix _) hnil, List.getLast?_reverse] at h
    exact head_dropWhile h

theorem pyStrip_getLast {l : ByteStr} {b : Nat} (h : (pyStrip l).getLast? = some b) :
    pyWsB b = false := by
  rw [pyStrip, List.getLast?_reverse] at h
  exact head_dropWhile h

theorem pyStrip_sublist (l : ByteStr) : List.Sublist (pyStrip l) l := by
  have h1 : List.Sublist ((l.dropWhile pyWsB).reverse.dropWhile pyWsB)
      (l.dropWhile pyWsB).reverse := List.dropWhile_sublist _
  have h2 := h1.reverse
  rw [List.reverse_reverse] at h2
  rw [pyStrip]
  exact List.Sublist.trans h2 (List.dropWhile_sublist _)

/-! ## Claim theorems -/

/-- C1 (counterexample): the claim fails as stated — `log_pdf_opened` is
not idempotent for every path.  At the path `"a "` (bytes `[97, 32]`,
trailing space) the appended line is stripped on read-back, so the
membership test misses it and the second call appends again. -/
theorem c1_counterexample :
    log_pdf_opened (log_pdf_opened [] [97, 32]) [97, 32] ≠ log_pdf_opened [] [97, 32] := by
  decide

/-- C1 (amended): the history appends are idempotent for the inputs the
program produces: `log_history` for every byte path (its lines are
percent-encoded, hence read back verbatim), and `log_pdf_opened` for
every non-empty single-line path without surrounding whitespace. -/
theorem c1_idempotent_append (sep : Nat) (hsep : sep = 47 ∨ sep = 92)
    (file file2 : List ByteStr) (p q : ByteStr) (hp : ∀ b ∈ p, b < 256)
    (hq1 : pyStrip q = q) (hq2 : q ≠ []) (hq3 : (10 : Nat) ∉ q) :
    log_history sep (log_history sep file p) p = log_history sep file p ∧
    log_pdf_opened (log_pdf_opened file2 q) q = log_pdf_opened file2 q :=
  ⟨log_history_norm_dedupe sep hsep file p p hp hp rfl,
   log_pdf_opened_idem file2 q hq1 hq2 hq3⟩

/-- C1 witness: idempotence at the concrete path `"a"` on empty logs. -/
theorem c1_witness :
    ((∀ b ∈ [97], b < 256) ∧ pyStrip [97] = [97] ∧ [97] ≠ ([] : ByteStr) ∧
      (10 : Nat) ∉ [97]) ∧
    log_history 47 (log_history 47 [] [97]) [97] = log_history 47 [] [97] ∧
    log_pdf_opened (log_pdf_opened [] [97]) [97] = log_pdf_opened [] [97] :=
  ⟨by decide,
   c1_idempotent_append 47 (Or.inl rfl) [] [] [97] [97] (by decide) (by decide) (by decide)
     (by decide)⟩

/-- C2 (counterexample): duplicate detection is not by normalized-path
equality in every history append: `scan_and_log_files` compares raw
lines, so `"C:\a\B.mp3"` followed by `"c:/a/b.mp3"` — whose normalized
forms coincide — are both appended. -/
theorem c2_counterexample :
    normalizeForCompare (bstr "C:\\a\\B.mp3") = normalizeForCompare (bstr "c:/a/b.mp3") ∧
    scan_and_log_files false [bstr "c:/a/b.mp3"]
        (scan_and_log_files false [bstr "C:\\a\\B.mp3"] []) =
      [bstr "C:\\a\\B.mp3", bstr "c:/a/b.mp3"] := by decide

/-- C2 (amended): `log_history` deduplicates by normalized-path equality
(appending a second path with the same decoded, separator-canonicalized,
lower-cased form appends nothing), while `scan_and_log_files`
deduplicates by raw byte equality only (re-scanning byte-identical
stripped lines appends nothing). -/
theorem c2_normalized_dedupe (sep : Nat) (hsep : sep = 47 ∨ sep = 92) (file : List ByteStr)
    (p1 p2 : ByteStr) (h1 : ∀ b ∈ p1, b < 256) (h2 : ∀ b ∈ p2, b < 256)
    (hnorm : normalizeForCompare p1 = normalizeForCompare p2) (isM3u : Bool)
    (files history : List ByteStr) (hfiles : ∀ f ∈ files, f ∈ scanExisting history) :
    log_history sep (log_history sep file p1) p2 = log_history sep file p1 ∧
    scan_and_log_files isM3u files history = history :=
  ⟨log_history_norm_dedupe sep hsep file p1 p2 h1 h2 hnorm,
   scan_byte_dedupe isM3u files history hfiles⟩

/-- C2 witness: `"B"` then `"b"` (distinct bytes, equal normalized forms)
dedupe in `log_history`; re-scanning a byte-present path is a no-op. -/
theorem c2_witness :
    (normalizeForCompare [66] = normalizeForCompare [98] ∧
      ∀ f ∈ [[97]], f ∈ scanExisting [[97]]) ∧
    log_history 47 (log_history 47 [] [66]) [98] = log_history 47 [] [66] ∧
    scan_and_log_files false [[97]] [[97]] = [[97]] :=
  ⟨⟨by decide, by decide⟩,
   c2_normalized_dedupe 47 (Or.inl rfl) [] [66] [98] (by decide) (by decide) (by decide)
     false [[97]] [[97]] (by decide)⟩

/-- C3: session exclusivity — in every reachable session state at most
one live process and at most one open control channel exist, and
`Launch(A)` then `Launch(B)` leaves exactly `B`'s handle alive with `A`'s
handle having received a termination request. -/
theorem c3_session_exclusivity :
    (∀ st : VlcState, VlcReachable st →
      st.liveProcs.length ≤ 1 ∧ st.openConns.length ≤ 1) ∧
    (∀ st : VlcState, VlcReachable st → ∀ a b : Nat,
      (launch_vlc (launch_vlc st a) b).liveProcs = [b] ∧
      a ∈ (launch_vlc (launch_vlc st a) b).killRequests) := by
  constructor
  · intro st h
    obtain ⟨hp, hc⟩ := vlc_invariant h
    constructor
    · rw [hp]; cases st.vlcProcess <;> simp
    · rw [hc]; cases st.vlcSocket <;> simp
  · intro st h a b
    exact launch_launch_spec (vlc_invariant h).1 a b

/-- C3 witness: from the initial state, `Launch(1)` then `Launch(2)`. -/
theorem c3_witness :
    VlcReachable initVlcState ∧
    (launch_vlc (launch_vlc initVlcState 1) 2).liveProcs = [2] ∧
    1 ∈ (launch_vlc (launch_vlc initVlcState 1) 2).killRequests ∧
    initVlcState.liveProcs.length ≤ 1 :=
  ⟨VlcReachable.init,
   (c3_session_exclusivity.2 initVlcState VlcReachable.init 1 2).1,
   (c3_session_exclusivity.2 initVlcState VlcReachable.init 1 2).2,
   (c3_session_exclusivity.1 initVlcState VlcReachable.init).1⟩

/-- C4 (counterexample): at or above the threshold the dispatch does not
always append to the query-history log: with the single document title
`"b.pdf"` scoring 100 but the recorded path `/a/b.pdf` missing on disk,
`search_and_open` reports the missing file and mutates nothing. -/
theorem c4_counterexample :
    extractOne (fun q t => if q = t then 100 else 0) (bstr "b.pdf")
        (searchTitles ⟨[], [bstr "/a/b.pdf"], [], [], []⟩) = some (bstr "b.pdf", 100) ∧
    search_and_open (fun q t => if q = t then 100 else 0)
        ⟨[], [bstr "/a/b.pdf"], [], [], []⟩ (bstr "b.pdf") =
      (SearchResult.pdfMissing (bstr "/a/b.pdf"), ⟨[], [bstr "/a/b.pdf"], [], [], []⟩) := by
  decide

/-- C4 (amended): best-match dispatch picks a highest-scoring title;
below 60 it signals NoMatch and mutates no state; at or above 60 a
playlist winner is dispatched and appended to the query-history log,
while a document winner is dispatched and appended only when its recorded
path is found and still exists — otherwise an error is reported and no
state is mutated. -/
theorem c4_best_match_dispatch (scorer : ByteStr → ByteStr → Nat) (env : SearchEnv)
    (q best : ByteStr) (score : Nat)
    (hE : extractOne scorer q (searchTitles env) = some (best, score)) :
    (best ∈ searchTitles env ∧ scorer q best = score ∧
      ∀ t ∈ searchTitles env, scorer q t ≤ score) ∧
    (score < 60 → search_and_open scorer env q = (SearchResult.noMatch, env)) ∧
    (60 ≤ score → best ∈ playlistTitles env →
      search_and_open scorer env q =
        (SearchResult.openedPlaylist best,
          { env with searchHistory := appendLine env.searchHistory best })) ∧
    (60 ≤ score → best ∉ playlistTitles env →
      (∃ p, basenameB p = best ∧
        search_and_open scorer env q =
          (SearchResult.openedPdf p,
            { env with pdfOpenedHistory := log_pdf_opened env.pdfOpenedHistory p,
                       searchHistory := appendLine env.searchHistory best })) ∨
      ((search_and_open scorer env q).2 = env ∧
        ((search_and_open scorer env q).1 = SearchResult.pdfNotFound ∨
          ∃ p, (search_and_open scorer env q).1 = SearchResult.pdfMissing p))) := by
  obtain ⟨hmem, hsc, hmax⟩ := extractOne_spec hE
  have hopen : search_and_open scorer env q =
      (if score < 60 then (SearchResult.noMatch, env)
       else if best ∈ playlistTitles env then
         (SearchResult.openedPlaylist best,
           { env with searchHistory := appendLine env.searchHistory best })
       else
         match (pdfLines env).filter (fun p => decide (basenameB p = best)) with
         | [] => (SearchResult.pdfNotFound, env)
         | p :: _ =>
           if p ∈ env.existingPaths then
             (SearchResult.openedPdf p,
               { env with pdfOpenedHistory := log_pdf_opened env.pdfOpenedHistory p,
                          searchHistory := appendLine env.searchHistory best })
           else (SearchResult.pdfMissing p, env)) := by
    rw [search_and_open, hE]
  refine ⟨⟨hmem, hsc, hmax⟩, ?_, ?_, ?_⟩
  · intro hlt
    rw [hopen, if_pos hlt]
  · intro hge hpl
    rw [hopen, if_neg (Nat.not_lt.mpr hge), if_pos hpl]
  · intro hge hnpl
    cases hm : (pdfLines env).filter (fun p => decide (basenameB p = best)) with
    | nil =>
      have hres : search_and_open scorer env q = (SearchResult.pdfNotFound, env) := by
        rw [hopen, if_neg (Nat.not_lt.mpr hge), if_neg hnpl]
        simp only [hm]
      rw [hres]
      exact Or.inr ⟨rfl, Or.inl rfl⟩
    | cons p rest =>
      have hbase : basenameB p = best := by
        have hpmem : p ∈ (pdfLines env).filter (fun x => decide (basenameB x = best)) := by
          rw [hm]; exact List.mem_cons_self p rest
        simpa using (List.mem_filter.mp hpmem).2
      by_cases hex : p ∈ env.existingPaths
      · have hres : search_and_open scorer env q =
            (SearchResult.openedPdf p,
              { env with pdfOpenedHistory := log_pdf_opened env.pdfOpenedHistory p,
                         searchHistory := appendLine env.searchHistory best }) := by
          rw [hopen, if_neg (Nat.not_lt.mpr hge), if_neg hnpl]
          simp only [hm]
          rw [if_pos hex]
        exact Or.inl ⟨p, hbase, hres⟩
      · have hres : search_and_open scorer env q = (SearchResult.pdfMissing p, env) := by
          rw [hopen, if_neg (Nat.not_lt.mpr hge), if_neg hnpl]
          simp only [hm]
          rw [if_neg hex]
        rw [hres]
        exact Or.inr ⟨rfl, Or.inr ⟨p, rfl⟩⟩

/-- C4 witness: the playlist `"x.m3u"` dispatched by the query `"x"` at
score 100 and appended to the search-history log. -/
theorem c4_witness :
    extractOne (fun q t => if q = t then 100 else 0) (bstr "x")
        (searchTitles ⟨[bstr "x.m3u"], [], [], [], []⟩) = some (bstr "x", 100) ∧
    search_and_open (fun q t => if q = t then 100 else 0) ⟨[bstr "x.m3u"], [], [], [], []⟩
        (bstr "x") =
      (SearchResult.openedPlaylist (bstr "x"),
        { playlistDirFiles := [bstr "x.m3u"], pdfHistory := [],
          searchHistory := appendLine [] (bstr "x"), pdfOpenedHistory := [],
          existingPaths := [] }) :=
  ⟨by decide,
   (c4_best_match_dispatch (fun q t => if q = t then 100 else 0)
     ⟨[bstr "x.m3u"], [], [], [], []⟩ (bstr "x") (bstr "x") 100 (by decide)).2.2.1
     (by omega) (by decide)⟩

/-- C5: live-filter acceptance rules — an entry is in the filtered result
iff it is a library entry and qualifies per the part count: 1 part needs
any of name/album/artist at 70; 2 parts need non-empty album and artist
both at 70; 3 parts need all three fields non-empty and at 70; any other
part count never qualifies. -/
theorem c5_live_filter_modes (ratio : ByteStr → ByteStr → Nat) (items : List MediaItem)
    (rawQuery : ByteStr) (hq : lowerB (pyStrip rawQuery) ≠ []) (it : MediaItem) :
    it ∈ filter_library ratio items rawQuery ↔
      it ∈ items ∧ specQualifies ratio (queryParts rawQuery) it := by
  rw [filter_library, if_neg hq]
  cases hqp : queryParts rawQuery with
  | nil => simp [specQualifies]
  | cons t rest =>
    cases rest with
    | nil => simp [specQualifies, List.mem_filter, and_assoc, or_assoc]
    | cons u rest2 =>
      cases rest2 with
      | nil => simp [specQualifies, List.mem_filter, and_assoc, or_assoc]
      | cons v rest3 =>
        cases rest3 with
        | nil => simp [specQualifies, List.mem_filter, and_assoc, or_assoc]
        | cons w rest4 => simp [specQualifies]

/-- C5 witness: a single-part query matching an entry's name. -/
theorem c5_witness :
    lowerB (pyStrip [97]) ≠ [] ∧
    ((⟨[97], [], [], none, [], []⟩ : MediaItem) ∈
        filter_library (fun a b => if a = b then 100 else 0)
          [⟨[97], [], [], none, [], []⟩] [97] ↔
      (⟨[97], [], [], none, [], []⟩ : MediaItem) ∈
          [(⟨[97], [], [], none, [], []⟩ : MediaItem)] ∧
        specQualifies (fun a b => if a = b then 100 else 0) (queryParts [97])
          ⟨[97], [], [], none, [], []⟩) :=
  ⟨by decide,
   c5_live_filter_modes (fun a b => if a = b then 100 else 0)
     [⟨[97], [], [], none, [], []⟩] [97] (by decide) ⟨[97], [], [], none, [], []⟩⟩

/-- C6 (counterexample): the best-match candidate universe does include
the internal history logs' names and keeps document extensions: with
`history.m3u` and `history2.m3u` on disk and `/x/a.pdf` in the document
history, the candidate titles are `history`, `history2` and `a.pdf`. -/
theorem c6_counterexample :
    searchTitles ⟨[bstr "history.m3u", bstr "history2.m3u"], [bstr "/x/a.pdf"], [], [], []⟩ =
      [bstr "history", bstr "history2", bstr "a.pdf"] := by decide

/-- C6 (amended): the candidate title universe equals the union of the
base names of all `.m3u` files in the playlist folder — the internal
history logs included — and the basenames (extension kept) of the
non-blank document-history lines. -/
theorem c6_title_universe (env : SearchEnv) (t : ByteStr) :
    t ∈ searchTitles env ↔ inBestMatchUniverse env t := by
  constructor
  · intro h
    rcases List.mem_append.mp h with h | h
    · rcases List.mem_map.mp h with ⟨f, hf, rfl⟩
      rcases List.mem_filter.mp hf with ⟨hf1, hf2⟩
      exact Or.inl ⟨f, hf1, hf2, rfl⟩
    · rcases List.mem_map.mp h with ⟨l, hl, rfl⟩
      rcases List.mem_filter.mp hl with ⟨hl1, hl2⟩
      rcases List.mem_map.mp hl1 with ⟨p, hp, rfl⟩
      exact Or.inr ⟨p, hp, by simpa using hl2, rfl⟩
  · intro h
    rcases h with ⟨f, hf1, hf2, rfl⟩ | ⟨p, hp, hne, rfl⟩
    · exact List.mem_append.mpr
        (Or.inl (List.mem_map.mpr ⟨f, List.mem_filter.mpr ⟨hf1, hf2⟩, rfl⟩))
    · refine List.mem_append.mpr (Or.inr (List.mem_map.mpr ⟨pyStrip p, ?_, rfl⟩))
      exact List.mem_filter.mpr ⟨List.mem_map.mpr ⟨p, hp, rfl⟩, by simpa using hne⟩

/-- C7 witness: round trip at `"/home/é x.mkv"` (UTF-8 bytes, with a
space and the non-ASCII bytes 195/169). -/
theorem c7_witness :
    (∀ b ∈ [47, 104, 111, 109, 101, 47, 195, 169, 32, 120, 46, 109, 107, 118], b < 256) ∧
    decodePath (encodePath [47, 104, 111, 109, 101, 47, 195, 169, 32, 120, 46, 109, 107, 118]) =
      [47, 104, 111, 109, 101, 47, 195, 169, 32, 120, 46, 109, 107, 118] :=
  ⟨by decide, c7_codec_round_trip _ (by decide)⟩

/-- C8: filename sanitization — the sanitized, truncated name contains
only allowed bytes, is a subsequence of the display name, carries no
leading or trailing whitespace, yields a file name of at most 215 bytes,
and `"Movie: Part 2?"` sanitizes to `"Movie Part 2"`. -/
theorem c8_sanitization (name : ByteStr) :
    (∀ b ∈ mkvSafeName name, validByte b = true) ∧
    List.Sublist (mkvSafeName name) name ∧
    (∀ b, (sanitize_playlist_name name).head? = some b → pyWsB b = false) ∧
    (∀ b, (sanitize_playlist_name name).getLast? = some b → pyWsB b = false) ∧
    (mkvPlaylistFilename name).length ≤ 215 ∧
    mkvSafeName (bstr "Movie: Part 2?") = bstr "Movie Part 2" := by
  refine ⟨?_, ?_, ?_, ?_, ?_, by decide⟩
  · intro b hb
    have hb1 : b ∈ sanitize_playlist_name name := List.mem_of_mem_take hb
    have hb2 : b ∈ name.filter validByte := (pyStrip_sublist _).subset hb1
    exact (List.mem_filter.mp hb2).2
  · exact ((List.take_sublist _ _).trans (pyStrip_sublist _)).trans (List.filter_sublist _)
  · intro b h; exact pyStrip_head h
  · intro b h; exact pyStrip_getLast h
  · rw [mkvPlaylistFilename, List.length_append]
    have h1 : (mkvSafeName name).length ≤ 211 := by
      rw [mkvSafeName]
      exact Nat.le_trans (List.length_take_le _ _) (Nat.le_refl _)
    have h2 : (bstr ".m3u").length = 4 := by decide
    omega

/-- C9 (counterexample): the MKV descriptor writer has no empty-name
fallback: the display name `"???"` sanitizes to the empty string and the
descriptor is written to the file named only by the extension, `.m3u`. -/
theorem c9_counterexample : mkvPlaylistFilename (bstr "???") = bstr ".m3u" := by decide

/-- C9 (amended): only the music-playlist writer substitutes the
`playlist_`-prefixed 8-hex-character hash name when the sanitized display
name is empty, so its descriptors are never written to `.m3u`; the
mkv/mp4 writers lack the fallback. -/
theorem c9_music_fallback (md5hex : ByteStr → ByteStr) (name : ByteStr)
    (hlen : 8 ≤ (md5hex name).length) (hempty : sanitize_playlist_name name = []) :
    write_playlist_filename md5hex name =
      bstr "playlist_" ++ (md5hex name).take 8 ++ bstr ".m3u" ∧
    ((md5hex name).take 8).length = 8 ∧
    write_playlist_filename md5hex name ≠ bstr ".m3u" := by
  have htake : ((md5hex name).take 8).length = 8 := by
    rw [List.length_take]
    omega
  have hlen17 : (bstr "playlist_" ++ (md5hex name).take 8).length = 17 := by
    rw [List.length_append, htake]
    decide
  have heq : write_playlist_filename md5hex name =
      bstr "playlist_" ++ (md5hex name).take 8 ++ bstr ".m3u" := by
    rw [write_playlist_filename, if_pos hempty, List.take_of_length_le (by omega)]
  refine ⟨heq, htake, ?_⟩
  rw [heq]
  intro hcontra
  have hL := congrArg List.length hcontra
  rw [List.length_append, hlen17] at hL
  have h4 : (bstr ".m3u").length = 4 := by decide
  rw [h4] at hL
  omega

/-- C9 witness: the fallback at the display name `"???"` with a concrete
32-character hex digest. -/
theorem c9_witness :
    (8 ≤ (bstr "0123456789abcdef0123456789abcdef").length ∧
      sanitize_playlist_name (bstr "???") = []) ∧
    (write_playlist_filename (fun _ => bstr "0123456789abcdef0123456789abcdef") (bstr "???") =
        bstr "playlist_" ++ (bstr "0123456789abcdef0123456789abcdef").take 8 ++ bstr ".m3u" ∧
      ((bstr "0123456789abcdef0123456789abcdef").take 8).length = 8 ∧
      write_playlist_filename (fun _ => bstr "0123456789abcdef0123456789abcdef") (bstr "???") ≠
        bstr ".m3u") :=
  ⟨⟨by decide, by decide⟩,
   c9_music_fallback (fun _ => bstr "0123456789abcdef0123456789abcdef") (bstr "???")
     (by decide) (by decide)⟩

/-- C10: a live-filter query with four or more comma-separated parts
returns the empty result set regardless of the library contents. -/
theorem c10_four_part_filter_empty (ratio : ByteStr → ByteStr → Nat) (items : List MediaItem)
    (rawQuery : ByteStr) (h : 4 ≤ (queryParts rawQuery).length) :
    filter_library ratio items rawQuery = [] := by
  have hq : lowerB (pyStrip rawQuery) ≠ [] := by
    intro he
    rw [queryParts, he] at h
    simp [splitOnB] at h
  rw [filter_library, if_neg hq]
  obtain ⟨l, hl⟩ : ∃ l, queryParts rawQuery = l := ⟨_, rfl⟩
  rw [hl] at h ⊢
  rcases l with _ | ⟨a, _ | ⟨b2, _ | ⟨c2, _ | ⟨d2, tl⟩⟩⟩⟩
  · simp at h
  · simp at h
  · simp at h
  · simp at h
  · rfl

/-- C10 witness: the query `"a,b,c,d"` filters everything out. -/
theorem c10_witness :
    4 ≤ (queryParts (bstr "a,b,c,d")).length ∧
    filter_library (fun a b => if a = b then 100 else 0)
        [⟨[97], [], [], none, [], []⟩] (bstr "a,b,c,d") = [] :=
  ⟨by decide,
   c10_four_part_filter_empty (fun a b => if a = b then 100 else 0)
     [⟨[97], [], [], none, [], []⟩] (bstr "a,b,c,d") (by decide)⟩

end ClaudeMusic
